import Mathlib

/-!
Verification of `autoupload.py` (csimmons0/autoupload) against its
natural-language specification.

The Python program is shallowly embedded below.  The Google Drive store is
modelled as a list of resources (`DriveFile`) plus a fresh-id counter
(`DriveState`); `drive.ListFile({...}).GetList()` becomes a `List.filter`
with a predicate transcribing the query string; folder creation appends a
fresh resource.  The local file system is modelled as a finite tree of
directories (`LocalDir`).  Fallible Python code (raised `RuntimeError`s)
becomes `Except DriveError`.
-/

namespace Autoupload

/-- `DRIVE_VIDEOS_DIR_NAME = "Videos"` (autoupload.py line 18). -/
def DRIVE_VIDEOS_DIR_NAME : String := "Videos"

/-- `DRIVE_FOLDER_MIME_TYPE` (line 19). -/
def DRIVE_FOLDER_MIME_TYPE : String := "application/vnd.google-apps.folder"

/-- `WORKER_COUNT = 2` (line 20): pool size and semaphore capacity. -/
def WORKER_COUNT : Nat := 2

/-- A remote Drive resource descriptor, with the fields the program reads:
`id`, `title`, `parents`, `mimeType`, `trashed`.  `parents` holds parent
folder ids (the program writes them via `parent_descriptor`, which wraps an
id in a `drive#fileLink` dict; the store keys `'<id>' in parents` queries on
that id, so the model keeps the id itself). -/
structure DriveFile where
  id : String
  title : String
  parents : List String
  mimeType : String
  trashed : Bool
deriving DecidableEq, Repr

/-- The remote store: the list of resources plus a counter used to mint
fresh opaque ids for resources this run creates. -/
structure DriveState where
  files : List DriveFile
  nextId : Nat
deriving DecidableEq, Repr

/-- Errors the program raises as `RuntimeError`; the spec's taxonomy names
them `AmbiguousResource` and `MissingRootFolder`. -/
inductive DriveError where
  | ambiguousResource (parent : String) (dirname : String) (count : Nat)
  | missingRootFolder
deriving DecidableEq, Repr

/-- `actual_parent_id` in `get_drive_dir_id` (lines 30-32): `None` maps to
the `"root"` sentinel. -/
def actualParentId (parent_id : Option String) : String :=
  match parent_id with
  | none => "root"
  | some p => p

/-- The query string of `get_drive_dir_id` (lines 34-38):
`'<parent>' in parents and title='<dirname>' and trashed=false`.
Note it does NOT constrain `mimeType`. -/
def dirIdQuery (parent : String) (dirname : String) (f : DriveFile) : Bool :=
  f.parents.contains parent && f.title == dirname && f.trashed == false

/-- `get_drive_dir_id` (lines 24-48): list matches of `dirIdQuery`;
zero matches returns `None`, more than one raises, exactly one returns the
match's id.  (The source memoizes this function with `functools.lru_cache`;
the cache only avoids repeated network calls and does not change the value
returned for a given store, so it is not modelled.) -/
def get_drive_dir_id (st : DriveState) (parent_id : Option String)
    (dirname : String) : Except DriveError (Option String) :=
  let p := actualParentId parent_id
  match st.files.filter (dirIdQuery p dirname) with
  | [] => Except.ok none
  | [m] => Except.ok (some m.id)
  | ms => Except.error (DriveError.ambiguousResource p dirname ms.length)

/-- `parent_descriptor` (lines 105-106) wraps a parent id; the model keeps
the id (see `DriveFile.parents`). -/
def parent_descriptor (parent_id : String) : String := parent_id

/-- Fresh opaque ids for resources created by this run. -/
def freshId (n : Nat) : String := "created-" ++ toString n

/-- `make_drive_dir` (lines 51-60): create a folder resource (folder mime
type, non-trashed) under `parent_id` and return it with the updated store. -/
def make_drive_dir (st : DriveState) (parent_id : String) (dirname : String) :
    DriveFile × DriveState :=
  let d : DriveFile :=
    { id := freshId st.nextId
      title := dirname
      parents := [parent_descriptor parent_id]
      mimeType := DRIVE_FOLDER_MIME_TYPE
      trashed := false }
  (d, { files := st.files ++ [d], nextId := st.nextId + 1 })

/-- The per-segment listing query of `make_drive_videos_subdir`
(lines 78-83): `'<parent>' in parents and trashed=false and
mimeType='<folder>'`.  Note it does not filter on title; the title match
happens afterwards in the `next(...)` expression. -/
def subdirListQuery (parent : String) (f : DriveFile) : Bool :=
  f.parents.contains parent && f.trashed == false
    && f.mimeType == DRIVE_FOLDER_MIME_TYPE

/-- One iteration of the loop in `make_drive_videos_subdir` (lines 75-100):
list the existing folder children of `parent_id`, take the FIRST one titled
`subdir` (`next(..., None)`), and create the folder only when none matched.
No ambiguity check is performed here. -/
def resolveSegment (st : DriveState) (parent_id : String) (subdir : String) :
    String × DriveState :=
  let drive_subdirs := st.files.filter (subdirListQuery parent_id)
  match drive_subdirs.find? (fun d => d.title == subdir) with
  | some d => (d.id, st)
  | none =>
    ((make_drive_dir st parent_id subdir).1.id,
      (make_drive_dir st parent_id subdir).2)

/-- One step of the `for subdir in relative_path.parts` loop: `parent_id`
moves to the resolved folder's id, the store may gain the created folder. -/
def segStep (acc : String × DriveState) (subdir : String) :
    String × DriveState :=
  resolveSegment acc.2 acc.1 subdir

/-- `make_drive_videos_subdir` (lines 63-102): resolve the root `Videos`
folder via `get_drive_dir_id` (raising when it is missing), then walk the
relative path's parts with `resolveSegment`.  `relative_path.parts` is a
list of path segments; for the walk's top directory it is empty
(`Path(".").parts == ()`). -/
def make_drive_videos_subdir (st : DriveState) (relative_path : List String) :
    Except DriveError (String × DriveState) :=
  match get_drive_dir_id st none DRIVE_VIDEOS_DIR_NAME with
  | Except.error e => Except.error e
  | Except.ok none => Except.error DriveError.missingRootFolder
  | Except.ok (some rootId) =>
    Except.ok (relative_path.foldl segStep (rootId, st))

/-- `is_dotfile` (lines 117-118): `path.name[0] == "."`.  File and directory
names produced by `os.walk` are nonempty, so the out-of-range case cannot
arise. -/
def is_dotfile (name : String) : Bool := name.front == '.'

/-- `should_skip_directory` (lines 109-110). -/
def should_skip_directory (directory : String) : Bool := is_dotfile directory

/-- `should_skip_file` (lines 113-114). -/
def should_skip_file (filepath : String) : Bool := is_dotfile filepath

/-- The query used in `main` (lines 187-189) to list files already in Drive:
`'<dir id>' in parents and mimeType!='<folder>' and trashed=false`. -/
def existingFilesQuery (drive_dir_id : String) (f : DriveFile) : Bool :=
  f.parents.contains drive_dir_id && f.mimeType != DRIVE_FOLDER_MIME_TYPE
    && f.trashed == false

/-- `drive_filenames` in `main` (lines 192-195): titles of the non-folder,
non-trashed children of the target folder. -/
def drive_filenames (st : DriveState) (drive_dir_id : String) : List String :=
  (st.files.filter (existingFilesQuery drive_dir_id)).map DriveFile.title

/-- The files for which `main` submits upload tasks in one directory
(lines 200-216): iterate over `set(filenames) - drive_filenames` and skip
files with `should_skip_file`.  `set(filenames)` is modelled by `dedup`;
the claims about this set are stated via membership, so the (unspecified)
iteration order of a Python set does not matter. -/
def submittedFiles (filenames : List String) (driveFilenames : List String) :
    List String :=
  (filenames.dedup.filter (fun f => !driveFilenames.contains f)).filter
    (fun f => !should_skip_file f)

/-- Entries emitted through the `logging` module, at the two levels the
program uses on the upload path (`logger.info`, `logger.error`). -/
inductive LogEntry where
  | info (msg : String)
  | error (msg : String)
deriving DecidableEq, Repr

/-- Observable outcome of `upload_file` (lines 121-140) for one file.  The
two fallible external steps are abstracted as flags: `uploadOk` is whether
`drive_file.Upload()` succeeds, `moveOk` whether `shutil.move` succeeds.
The function logs `Uploading <name>` first (line 123); the move runs only
after a successful upload, so `atSourcePath` (the file is still at its
original path) is false exactly when both steps succeeded; `raised` records
whether the call raised. -/
structure UploadOutcome where
  logs : List LogEntry
  uploadedRemotely : Bool
  atSourcePath : Bool
  raised : Bool
deriving DecidableEq, Repr

def upload_file (filename : String) (uploadOk moveOk : Bool) : UploadOutcome :=
  { logs := [LogEntry.info ("Uploading " ++ filename)]
    uploadedRemotely := uploadOk
    atSourcePath := !(uploadOk && moveOk)
    raised := !(uploadOk && moveOk) }

/-- Outcome of the closure `upload_this_file` (lines 207-211). -/
structure TaskOutcome extends UploadOutcome where
  permitReleased : Bool
deriving DecidableEq, Repr

/-- `upload_this_file` (lines 207-211): run `upload_file` with
`semaphore.release()` in a `finally` block, so the permit is released on
success and failure alike.  An exception propagates only into the `Future`
returned by `executor.submit` (line 216), which `main` discards and never
inspects, so it reaches no caller and no logger. -/
def upload_this_file (filename : String) (uploadOk moveOk : Bool) :
    TaskOutcome :=
  { upload_file filename uploadOk moveOk with permitReleased := true }

/-- The remote file resource created by a successful `drive_file.Upload()`
in `upload_file` (lines 124-131): titled after the local file, parented to
the target folder.  The source sets no `mimeType`; Drive assigns the
content's type, which is never the folder type, so the model uses a fixed
non-folder type. -/
def uploadedDriveFile (n : Nat) (drive_dir_id : String) (filename : String) :
    DriveFile :=
  { id := freshId n
    title := filename
    parents := [parent_descriptor drive_dir_id]
    mimeType := "video/mp4"
    trashed := false }

def addUpload (st : DriveState) (drive_dir_id : String) (filename : String) :
    DriveState :=
  { files := st.files ++ [uploadedDriveFile st.nextId drive_dir_id filename]
    nextId := st.nextId + 1 }

/-- The effect of the submitted tasks on the remote store: each task whose
upload step succeeded (`drive_file.Upload()`, line 131) appends the new
remote file resource; a task that failed before the upload completed
appends nothing. -/
def runTasks (drive_dir_id : String) (tasks : List (String × TaskOutcome))
    (st : DriveState) : DriveState :=
  tasks.foldl
    (fun s t => if t.2.uploadedRemotely then addUpload s drive_dir_id t.1 else s)
    st

/-- What one iteration of the walk loop in `main` (lines 167-216) does for
one directory, once its tasks have run. -/
structure DirRun where
  drive : DriveState
  didResolve : Bool
  submitted : List String
  tasks : List (String × TaskOutcome)
  remaining : List String
deriving Repr

/-- The index of the dispatcher iteration whose loop bindings the `j`-th
task submitted in a directory observes.  `upload_this_file` (lines
207-211) is a ZERO-argument closure: it reads `main`'s local variables
`filepath`, `drive_dir_id` and `uploaded_files_dir` only when a pool
worker finally calls `upload_file` (line 209), not when the task is
submitted, so a delayed task observes whatever the candidate loop has
rebound those cells to by then.  All four cells are read in one call
expression, giving each task a single consistent snapshot.  `filepath` is
rebound at the top of iteration `j` before task `j` is submitted
(line 201), so the observed iteration is at least `j`; within the
directory it is at most the last candidate index, which is what the clamp
enforces (a task can in reality even survive into a later directory and
observe that directory's bindings — a strictly wider failure mode that
this model does not need). -/
def obsIndex (k : Nat) (sees : Nat → Nat) (j : Nat) : Nat :=
  max j (min (sees j) (k - 1))

/-- The upload tasks one directory submits, in submission order: the `j`-th
task runs against the file the dispatcher's `filepath` cell holds when the
task executes (`subs` listed at the observed index, see `obsIndex`), with
that call's upload/move success flags. -/
def mkTasks (subs : List String) (uploadOk moveOk : Nat → Bool)
    (sees : Nat → Nat) : List (String × TaskOutcome) :=
  (List.range subs.length).map (fun j =>
    let observed := subs.getD (obsIndex subs.length sees j) ""
    (observed, upload_this_file observed (uploadOk j) (moveOk j)))

/-- One iteration of the walk loop in `main` (lines 172-216) for the
directory at `relpath` with direct files `filenames`, together with the
eventual effect of the upload tasks it submits.  `uploadOk j` / `moveOk j`
abstract the success of the `j`-th task's `Upload()` and `shutil.move`
calls; `sees j` is the dispatcher iteration whose bindings the `j`-th
task observes when it runs (see `obsIndex`): the task uploads and moves
the OBSERVED file, which is the file it was submitted for only when it
starts before the dispatcher rebinds `filepath`.
  - `if not filenames: continue` (line 174): an empty directory does no
    upload work and in particular never calls `make_drive_videos_subdir`;
  - otherwise resolve/create the Drive folder chain (line 180; a raised
    `RuntimeError` escapes `main` and aborts the whole walk), list the
    files already in Drive (lines 192-195), and submit a task for each
    name in the set difference that is not a dotfile (lines 200-216);
  - a file leaves its source directory exactly when some task observed it
    and succeeded in both its upload and its move. -/
def processDirectory (st : DriveState) (relpath : List String)
    (filenames : List String) (uploadOk moveOk : Nat → Bool)
    (sees : Nat → Nat) : Except DriveError DirRun :=
  if filenames.isEmpty then
    Except.ok
      { drive := st, didResolve := false, submitted := [], tasks := []
        remaining := filenames }
  else
    match make_drive_videos_subdir st relpath with
    | Except.error e => Except.error e
    | Except.ok (drive_dir_id, st1) =>
      let existing := drive_filenames st1 drive_dir_id
      let subs := submittedFiles filenames existing
      let tasks := mkTasks subs uploadOk moveOk sees
      let st2 := runTasks drive_dir_id tasks st1
      let remaining := filenames.filter
        (fun f => !(tasks.any (fun t => t.1 == f && !t.2.atSourcePath)))
      Except.ok
        { drive := st2, didResolve := true, submitted := subs, tasks := tasks
          remaining := remaining }

/-- The schedule in which every task starts before the dispatcher rebinds
the loop variables: each task observes its own iteration's bindings.  This
is the behavior the program exhibits when no task start is delayed (and
the behavior spec §9 prescribes for a reimplementation with explicit task
parameters). -/
def promptSees : List String → Nat → Nat := fun _ j => j

/-- One submitted task, as recorded by the dispatcher model. -/
structure TaskRec where
  dir : List String
  file : String
  outcome : TaskOutcome
deriving Repr

/-- Accumulated state of the walk loop in `main`.  `remainingDirs` records,
per visited directory, the files still at their source paths when the run
ends (the input to a subsequent run); `error?` is the first `RuntimeError`
raised on the dispatcher path, which aborts the walk (submissions made
before it stand). -/
structure LoopState where
  drive : DriveState
  submitted : List (List String × String)
  tasks : List TaskRec
  remainingDirs : List (List String × List String)
  error? : Option DriveError
deriving Repr

def initLoopState (st : DriveState) : LoopState :=
  { drive := st, submitted := [], tasks := [], remainingDirs := []
    error? := none }

def stepDir (uploadOk moveOk : List String → Nat → Bool)
    (sees : List String → Nat → Nat) (ls : LoopState)
    (t : List String × List String) : LoopState :=
  if ls.error?.isSome then ls
  else
    match processDirectory ls.drive t.1 t.2 (uploadOk t.1) (moveOk t.1)
        (sees t.1) with
    | Except.error e => { ls with error? := some e }
    | Except.ok d =>
      { drive := d.drive
        submitted := ls.submitted ++ d.submitted.map (fun f => (t.1, f))
        tasks := ls.tasks ++ d.tasks.map (fun p => ⟨t.1, p.1, p.2⟩)
        remainingDirs := ls.remainingDirs ++ [(t.1, d.remaining)]
        error? := none }

/-- The whole walk loop of `main` (lines 167-216) over the list of
`(relative directory path, direct file names)` pairs produced by `os.walk`,
with the per-task success flags and the task-start schedule as
parameters (both indexed per directory and per task). -/
def run (uploadOk moveOk : List String → Nat → Bool)
    (sees : List String → Nat → Nat) (st : DriveState)
    (dirs : List (List String × List String)) : LoopState :=
  dirs.foldl (stepDir uploadOk moveOk sees) (initLoopState st)

/-- A local directory tree: directory name, subdirectories, direct files. -/
inductive LocalDir where
  | mk (dirName : String) (subdirs : List LocalDir) (filenames : List String)

def LocalDir.dirName : LocalDir → String
  | .mk n _ _ => n

def LocalDir.subdirs : LocalDir → List LocalDir
  | .mk _ s _ => s

def LocalDir.filenames : LocalDir → List String
  | .mk _ _ f => f

/-- The list computed by the comprehension on line 170,
`[subdir for subdir in subdirs if not should_skip_directory(subdir)]`.
Note where it goes: line 168 first REBINDS the loop variable `subdirs` to a
fresh list (`subdirs = list(map(pathlib.Path, subdirs))`), so the slice
assignment on line 170 mutates that fresh list, not the `dirnames` list
yielded by `os.walk`.  The computed list is therefore never read again and
`os.walk`'s descent is unaffected. -/
def prunedSubdirs (subdirs : List String) : List String :=
  subdirs.filter (fun s => !should_skip_directory s)

mutual
/-- The `(relative path, direct file names)` pairs yielded by
`os.walk(local_videos_dir)` (line 167) in yield order: each directory
first, then its subtrees in order.  The relative path is
`Path(directory).relative_to(local_videos_dir).parts` (line 179), which is
empty for the top directory.  Because the in-place pruning on line 170
operates on a rebound copy (see `prunedSubdirs`), the walk descends into
EVERY subdirectory, hidden ones included. -/
def walkTriples : LocalDir → List String → List (List String × List String)
  | .mk _ subdirs filenames, relpath =>
    (relpath, filenames) :: walkForest subdirs relpath

def walkForest : List LocalDir → List String → List (List String × List String)
  | [], _ => []
  | d :: rest, relpath =>
    walkTriples d (relpath ++ [d.dirName]) ++ walkForest rest relpath
end

/-- Externally visible effects of `main` (lines 142-219), in program
order. -/
inductive Effect where
  | makedirs (path : List String) (exist_ok : Bool)
  | authenticate
  | visitDir (relpath : List String)
  | submitUpload (relpath : List String) (filename : String)
deriving DecidableEq, Repr

/-- Effects of the walk loop: for each visited directory, the visit; for a
directory with files, the local uploaded-files directory creation
(`uploaded_files_dir.mkdir(parents=True, exist_ok=True)`, line 184) and
the task submissions; a dispatcher-path `RuntimeError` stops the walk. -/
def loopEffects (uploadedRoot : List String)
    (uploadOk moveOk : List String → Nat → Bool)
    (sees : List String → Nat → Nat) :
    DriveState → List (List String × List String) → List Effect
  | _, [] => []
  | st, t :: rest =>
    if t.2.isEmpty then
      Effect.visitDir t.1 :: loopEffects uploadedRoot uploadOk moveOk sees st rest
    else
      match processDirectory st t.1 t.2 (uploadOk t.1) (moveOk t.1)
          (sees t.1) with
      | Except.error _ => [Effect.visitDir t.1]
      | Except.ok d =>
        Effect.visitDir t.1 :: Effect.makedirs (uploadedRoot ++ t.1) true ::
          (d.submitted.map (Effect.submitUpload t.1) ++
            loopEffects uploadedRoot uploadOk moveOk sees d.drive rest)

/-- The effect trace of `main` (lines 142-219) in source order: create the
local uploaded-videos root with `os.makedirs(..., exist_ok=True)`
(lines 157-158), authenticate (lines 161-163), then walk (lines 166-216). -/
def mainEffects (uploadedRoot : List String) (st : DriveState)
    (root : LocalDir) (uploadOk moveOk : List String → Nat → Bool)
    (sees : List String → Nat → Nat) : List Effect :=
  Effect.makedirs uploadedRoot true :: Effect.authenticate ::
    loopEffects uploadedRoot uploadOk moveOk sees st (walkTriples root [])

/-- Events on the concurrency permit counter: `submit` is
`semaphore.acquire()` followed immediately by `executor.submit`
(lines 213-216, on the single dispatcher thread); `finish` is a task
completing and running `semaphore.release()` in its `finally` block
(line 211). -/
inductive PoolEv where
  | submit
  | finish
deriving DecidableEq, Repr

/-- Semantics of `threading.BoundedSemaphore(value=WORKER_COUNT)`
(line 154): `acquire` blocks (so a `submit` is not enabled) while
`WORKER_COUNT` permits are out; `release` requires a permit to be out.
`none` marks a transition that cannot occur. -/
def poolStep : Option Nat → PoolEv → Option Nat
  | none, _ => none
  | some c, PoolEv.submit => if c < WORKER_COUNT then some (c + 1) else none
  | some c, PoolEv.finish => if 0 < c then some (c - 1) else none

/-- The permit counter after a trace of events, starting from zero permits
out. -/
def poolRun (tr : List PoolEv) : Option Nat :=
  tr.foldl poolStep (some 0)

/-- The message `__main__` logs for an exception escaping `main`
(lines 226-227). -/
def describeError : DriveError → String
  | DriveError.ambiguousResource p n c =>
    "Query for parent_id=" ++ p ++ ", title=" ++ n ++
      " resulted in a list of size " ++ toString c
  | DriveError.missingRootFolder =>
    "Root videos dir named Videos does not exist"

def isErrorEntry : LogEntry → Bool
  | LogEntry.error _ => true
  | _ => false

/-- Every log entry a run produces on the upload path: the per-task logs,
plus the `logger.error` in `__main__` (line 227) when a dispatcher-path
exception escaped `main`.  Exceptions inside submitted tasks are captured
by their discarded `Future`s and reach no logger. -/
def runLogs (R : LoopState) : List LogEntry :=
  (R.tasks.map (fun t => t.outcome.logs)).flatten ++
    (match R.error? with
     | some e => [LogEntry.error (describeError e)]
     | none => [])

/-! Concrete stores and trees shared by the concrete evaluations below. -/

/-- A remote `Videos` folder at the Drive root. -/
def videosFolder : DriveFile :=
  { id := "vid", title := "Videos", parents := ["root"]
    mimeType := DRIVE_FOLDER_MIME_TYPE, trashed := false }

/-- A store holding just the `Videos` root folder. -/
def demoStore : DriveState := { files := [videosFolder], nextId := 0 }

/-! Helper lemmas. -/

theorem contains_eq_false_iff (l : List String) (a : String) :
    l.contains a = false ↔ a ∉ l := by
  rw [← Bool.not_eq_true]
  exact not_congr List.elem_iff

theorem submittedFiles_mem (L R : List String) (f : String) :
    f ∈ submittedFiles L R ↔ (f ∈ L ∧ f ∉ R ∧ is_dotfile f = false) := by
  simp only [submittedFiles, should_skip_file, List.mem_filter, List.mem_dedup,
    Bool.not_eq_true', contains_eq_false_iff, and_assoc]

theorem submittedFiles_eq_nil (L R : List String)
    (h : ∀ f ∈ L, is_dotfile f = true ∨ f ∈ R) : submittedFiles L R = [] := by
  rw [List.eq_nil_iff_forall_not_mem]
  intro f hf
  rw [submittedFiles_mem] at hf
  rcases h f hf.1 with hdot | hr
  · rw [hf.2.2] at hdot
    exact Bool.false_ne_true hdot
  · exact hf.2.1 hr

theorem drive_filenames_mem (st : DriveState) (id t : String) :
    t ∈ drive_filenames st id ↔
      ∃ r ∈ st.files, r.title = t ∧ r.parents.contains id = true ∧
        r.mimeType ≠ DRIVE_FOLDER_MIME_TYPE ∧ r.trashed = false := by
  simp only [drive_filenames, List.mem_map, List.mem_filter, existingFilesQuery,
    Bool.and_eq_true, bne_iff_ne, beq_iff_eq]
  constructor
  · rintro ⟨r, ⟨hr, ⟨⟨hp, hm⟩, ht⟩⟩, rfl⟩
    exact ⟨r, hr, rfl, hp, hm, ht⟩
  · rintro ⟨r, hr, rfl, hp, hm, ht⟩
    exact ⟨r, ⟨hr, ⟨⟨hp, hm⟩, ht⟩⟩, rfl⟩

/-! Claim C2. -/

/-- C2: for every directory, with local file names `L`, remote non-folder
non-trashed file names `R` in the matching folder, and hidden names removed,
the set of files submitted for upload is exactly `L` minus `R` minus the
hidden names; in particular for local `{a, b, c}` and remote `{b}` the
candidate set is exactly `{a, c}`. -/
theorem C2_candidate_set_is_difference :
    (∀ (st : DriveState) (dirId t : String),
      t ∈ drive_filenames st dirId ↔
        ∃ r ∈ st.files, r.title = t ∧ r.parents.contains dirId = true ∧
          r.mimeType ≠ DRIVE_FOLDER_MIME_TYPE ∧ r.trashed = false) ∧
    (∀ (L R : List String) (f : String),
      f ∈ submittedFiles L R ↔ (f ∈ L ∧ f ∉ R ∧ is_dotfile f = false)) ∧
    submittedFiles ["a", "b", "c"] ["b"] = ["a", "c"] :=
  ⟨drive_filenames_mem, submittedFiles_mem, by decide⟩

/-! Claim C7. -/

/-- C7: an upload task whose upload step fails before the relocation step
leaves the local file at its original path (and raises), and the
concurrency permit is released whether the task succeeds or fails. -/
theorem C7_failure_leaves_file_and_releases_permit :
    (∀ (f : String) (moveOk : Bool),
      (upload_this_file f false moveOk).atSourcePath = true ∧
      (upload_this_file f false moveOk).raised = true) ∧
    (∀ (f : String) (uploadOk moveOk : Bool),
      (upload_this_file f uploadOk moveOk).permitReleased = true) := by
  refine ⟨fun f m => ⟨rfl, rfl⟩, fun f u m => rfl⟩

/-! Claim C9. -/

theorem foldl_poolStep_none (tr : List PoolEv) :
    tr.foldl poolStep none = none := by
  induction tr with
  | nil => rfl
  | cons e rest ih => simpa [poolStep] using ih

theorem pool_invariant (tr : List PoolEv) :
    ∀ (c0 c : Nat), c0 ≤ WORKER_COUNT →
      tr.foldl poolStep (some c0) = some c →
      c ≤ WORKER_COUNT ∧
        c + tr.count PoolEv.finish = c0 + tr.count PoolEv.submit := by
  induction tr with
  | nil =>
    intro c0 c hb h
    simp only [List.foldl_nil, Option.some.injEq] at h
    subst h
    simp [hb]
  | cons e rest ih =>
    intro c0 c hb h
    cases e with
    | submit =>
      by_cases hlt : c0 < WORKER_COUNT
      · simp only [List.foldl_cons, poolStep, if_pos hlt] at h
        obtain ⟨h1, h2⟩ := ih (c0 + 1) c hlt h
        refine ⟨h1, ?_⟩
        simp [List.count_cons]
        omega
      · simp only [List.foldl_cons, poolStep, if_neg hlt] at h
        rw [foldl_poolStep_none] at h
        exact absurd h (by simp)
    | finish =>
      by_cases hpos : 0 < c0
      · simp only [List.foldl_cons, poolStep, if_pos hpos] at h
        obtain ⟨h1, h2⟩ := ih (c0 - 1) c (by omega) h
        refine ⟨h1, ?_⟩
        simp [List.count_cons]
        omega
      · simp only [List.foldl_cons, poolStep, if_neg hpos] at h
        rw [foldl_poolStep_none] at h
        exact absurd h (by simp)

/-- C9: in every trace of permit events the semaphore admits (each `submit`
is an `acquire` immediately followed by a pool submission; each `finish`
releases in `finally`), the permit counter equals the number of
submitted-but-unfinished tasks, never exceeds `WORKER_COUNT = 2`, and the
same bound holds at every intermediate point of the trace. -/
theorem C9_at_most_two_concurrent_uploads (tr : List PoolEv) (c : Nat)
    (h : poolRun tr = some c) :
    c ≤ WORKER_COUNT ∧
    c + tr.count PoolEv.finish = tr.count PoolEv.submit ∧
    (∀ pre suf : List PoolEv, tr = pre ++ suf →
      ∃ c', poolRun pre = some c' ∧ c' ≤ WORKER_COUNT) := by
  obtain ⟨h1, h2⟩ := pool_invariant tr 0 c (by decide) h
  refine ⟨h1, by simpa using h2, ?_⟩
  intro pre suf hsplit
  cases hc : poolRun pre with
  | none =>
    subst hsplit
    rw [poolRun, List.foldl_append] at h
    rw [poolRun] at hc
    rw [hc, foldl_poolStep_none] at h
    exact absurd h (by simp)
  | some c' =>
    obtain ⟨h1', _⟩ := pool_invariant pre 0 c' (by decide) hc
    exact ⟨c', rfl, h1'⟩

/-- C9 witness: the concrete trace submit, submit, finish, submit is valid
and ends with two tasks in flight, within the bound. -/
theorem C9_witness :
    2 ≤ WORKER_COUNT ∧
    2 + [PoolEv.submit, PoolEv.submit, PoolEv.finish,
          PoolEv.submit].count PoolEv.finish =
        [PoolEv.submit, PoolEv.submit, PoolEv.finish,
          PoolEv.submit].count PoolEv.submit ∧
    (∀ pre suf : List PoolEv,
      [PoolEv.submit, PoolEv.submit, PoolEv.finish, PoolEv.submit] =
        pre ++ suf →
      ∃ c', poolRun pre = some c' ∧ c' ≤ WORKER_COUNT) :=
  C9_at_most_two_concurrent_uploads
    [PoolEv.submit, PoolEv.submit, PoolEv.finish, PoolEv.submit] 2 rfl

/-! Claim C10. -/

theorem loopEffects_makedirs_exist_ok (uploadedRoot : List String)
    (uOk mOk : List String → Nat → Bool) (sees : List String → Nat → Nat)
    (p : List String) (b : Bool) :
    ∀ (dirs : List (List String × List String)) (st : DriveState),
      Effect.makedirs p b ∈ loopEffects uploadedRoot uOk mOk sees st dirs →
      b = true := by
  intro dirs
  induction dirs with
  | nil =>
    intro st h
    simp [loopEffects] at h
  | cons t rest ih =>
    intro st h
    rw [loopEffects] at h
    split at h
    · rcases List.mem_cons.mp h with hv | hr
      · exact absurd hv (by simp)
      · exact ih st hr
    · split at h
      · simp at h
      · rcases List.mem_cons.mp h with hv | h
        · exact absurd hv (by simp)
        · rcases List.mem_cons.mp h with hm | h
          · injection hm
          · rcases List.mem_append.mp h with hs | hr
            · rcases List.mem_map.mp hs with ⟨f, _, hf⟩
              exact absurd hf.symm (by simp)
            · exact ih _ hr

/-- C10: on every invocation the local uploaded-videos root is created,
with `exist_ok` semantics, before authentication and before the walk
begins, whatever the local tree and remote store hold (in particular also
when nothing is uploaded); moreover every directory creation the program
ever performs passes `exist_ok=True`, so a pre-existing directory is never
an error. -/
theorem C10_uploaded_root_created_before_auth_and_walk
    (uploadedRoot : List String) (st : DriveState) (root : LocalDir)
    (uOk mOk : List String → Nat → Bool)
    (sees : List String → Nat → Nat) :
    (∃ rest, mainEffects uploadedRoot st root uOk mOk sees =
      Effect.makedirs uploadedRoot true :: Effect.authenticate :: rest) ∧
    (∀ (p : List String) (b : Bool),
      Effect.makedirs p b ∈ mainEffects uploadedRoot st root uOk mOk sees →
      b = true) := by
  constructor
  · exact ⟨_, rfl⟩
  · intro p b h
    rcases List.mem_cons.mp h with hm | h
    · injection hm
    · rcases List.mem_cons.mp h with hm | h
      · exact absurd hm (by simp)
      · exact loopEffects_makedirs_exist_ok uploadedRoot uOk mOk sees p b _ st h

/-- C10 witness: concrete instance, on an empty tree (nothing uploaded). -/
theorem C10_witness :
    (∃ rest, mainEffects ["uploaded"] demoStore (LocalDir.mk "videos" [] [])
        (fun _ _ => true) (fun _ _ => true) promptSees =
      Effect.makedirs ["uploaded"] true :: Effect.authenticate :: rest) ∧
    true = true := by
  refine ⟨(C10_uploaded_root_created_before_auth_and_walk
    ["uploaded"] demoStore (LocalDir.mk "videos" [] [])
    (fun _ _ => true) (fun _ _ => true) promptSees).1, ?_⟩
  exact (C10_uploaded_root_created_before_auth_and_walk
    ["uploaded"] demoStore (LocalDir.mk "videos" [] [])
    (fun _ _ => true) (fun _ _ => true) promptSees).2 ["uploaded"] true
    (List.mem_cons_self _ _)

/-! Claim C4. -/

/-- A second remote folder named `trip` under the same parent as the
first: duplicated remote state. -/
def tripFolder1 : DriveFile :=
  { id := "t1", title := "trip", parents := ["vid"]
    mimeType := DRIVE_FOLDER_MIME_TYPE, trashed := false }

def tripFolder2 : DriveFile :=
  { id := "t2", title := "trip", parents := ["vid"]
    mimeType := DRIVE_FOLDER_MIME_TYPE, trashed := false }

def ambiguousStore : DriveState :=
  { files := [videosFolder, tripFolder1, tripFolder2], nextId := 0 }

/-- Two remote folders both named `Videos` at the Drive root. -/
def doubledVideosStore : DriveState :=
  { files := [videosFolder, { videosFolder with id := "vid2" }], nextId := 0 }

/-- C4 counterexample: under parent `vid` there are two folder resources
titled `trip`, yet the path-segment lookup of `make_drive_videos_subdir`
does not fail: it silently resolves to the first match `t1` and the run
proceeds. -/
theorem C4_counterexample_segment_lookup_not_ambiguous :
    ((ambiguousStore.files.filter (subdirListQuery "vid")).filter
        (fun d => d.title == "trip")).length = 2 ∧
    make_drive_videos_subdir ambiguousStore ["trip"] =
      Except.ok ("t1", ambiguousStore) := by
  exact ⟨rfl, rfl⟩

/-- C4 (amended): the root-folder lookup (`get_drive_dir_id`) fails with an
AmbiguousResource error whenever more than one remote resource matches; the
per-path-segment lookups of `make_drive_videos_subdir` perform no such
check and silently take the first listed title match. -/
theorem C4_root_lookup_ambiguity_only :
    (∀ (st : DriveState) (parent : Option String) (dirname : String),
      1 < (st.files.filter
            (dirIdQuery (actualParentId parent) dirname)).length →
      get_drive_dir_id st parent dirname =
        Except.error (DriveError.ambiguousResource (actualParentId parent)
          dirname
          (st.files.filter
            (dirIdQuery (actualParentId parent) dirname)).length)) ∧
    (∀ (st : DriveState) (parent_id subdir : String) (d : DriveFile),
      (st.files.filter (subdirListQuery parent_id)).find?
          (fun x => x.title == subdir) = some d →
      resolveSegment st parent_id subdir = (d.id, st)) := by
  constructor
  · intro st parent dirname h
    simp only [get_drive_dir_id]
    cases hl : st.files.filter (dirIdQuery (actualParentId parent) dirname) with
    | nil =>
      rw [hl] at h
      simp at h
    | cons a tl =>
      cases tl with
      | nil =>
        rw [hl] at h
        simp at h
      | cons b tl2 =>
        rfl
  · intro st parent_id subdir d h
    simp only [resolveSegment]
    rw [h]

/-- C4 witness: a duplicated root `Videos` pair aborts the root lookup,
while the duplicated `trip` pair is resolved silently to `t1`. -/
theorem C4_witness :
    get_drive_dir_id doubledVideosStore none "Videos" =
      Except.error (DriveError.ambiguousResource (actualParentId none)
        "Videos"
        (doubledVideosStore.files.filter
          (dirIdQuery (actualParentId none) "Videos")).length) ∧
    resolveSegment ambiguousStore "vid" "trip" = ("t1", ambiguousStore) :=
  ⟨(C4_root_lookup_ambiguity_only).1 doubledVideosStore none "Videos"
      (by decide),
    (C4_root_lookup_ambiguity_only).2 ambiguousStore "vid" "trip" tripFolder1
      (by decide)⟩

/-! Claim C5. -/

/-- A plain (non-folder) remote file named `Videos` at the Drive root. -/
def plainVideosFile : DriveFile :=
  { id := "plain-1", title := "Videos", parents := ["root"]
    mimeType := "video/mp4", trashed := false }

def plainVideosStore : DriveState := { files := [plainVideosFile], nextId := 0 }

/-- C5 counterexample: the root-folder lookup's query does not constrain
`mimeType`, so a plain remote file sharing the name `Videos` IS returned as
the folder's identifier. -/
theorem C5_counterexample_plain_file_matches_root_lookup :
    plainVideosFile.mimeType ≠ DRIVE_FOLDER_MIME_TYPE ∧
    get_drive_dir_id plainVideosStore none DRIVE_VIDEOS_DIR_NAME =
      Except.ok (some plainVideosFile.id) := by
  exact ⟨by decide, rfl⟩

/-- C5 (amended): the per-segment listings of `make_drive_videos_subdir`
match only folder-typed, non-trashed resources, but the by-name lookup of
`get_drive_dir_id` (used for the root `Videos` folder) filters only on
parent, title and trashed state — its query is insensitive to `mimeType`,
so a plain file sharing the name can be returned. -/
theorem C5_folder_type_filter_segment_only :
    (∀ (st : DriveState) (p : String) (f : DriveFile),
      f ∈ st.files.filter (subdirListQuery p) →
      f.mimeType = DRIVE_FOLDER_MIME_TYPE ∧ f.trashed = false) ∧
    (∀ (p n m : String) (f : DriveFile),
      dirIdQuery p n { f with mimeType := m } = dirIdQuery p n f) := by
  constructor
  · intro st p f hf
    have h := (List.mem_filter.mp hf).2
    simp only [subdirListQuery, Bool.and_eq_true, beq_iff_eq] at h
    exact ⟨h.2, h.1.2⟩
  · intro p n m f
    rfl

/-- C5 witness: concrete instances of both conjuncts. -/
theorem C5_witness :
    (videosFolder.mimeType = DRIVE_FOLDER_MIME_TYPE ∧
      videosFolder.trashed = false) ∧
    dirIdQuery "root" "Videos" { plainVideosFile with mimeType := "x" } =
      dirIdQuery "root" "Videos" plainVideosFile :=
  ⟨(C5_folder_type_filter_segment_only).1 demoStore "root" videosFolder
      (by decide),
    (C5_folder_type_filter_segment_only).2 "root" "Videos" "x"
      plainVideosFile⟩

/-! Claim C6. -/

theorem walkForest_mem (t : List String × List String) :
    ∀ (subs : List LocalDir) (rp : List String) (d : LocalDir), d ∈ subs →
      t ∈ walkTriples d (rp ++ [d.dirName]) → t ∈ walkForest subs rp := by
  intro subs
  induction subs with
  | nil =>
    intro rp d hd
    simp at hd
  | cons a rest ih =>
    intro rp d hd ht
    rw [walkForest]
    rcases List.mem_cons.mp hd with h | hmem
    · subst h
      exact List.mem_append_left _ ht
    · exact List.mem_append_right _ (ih rp d hmem ht)

/-- C6 counterexample: a directory (at relative path `d`) whose only direct
file is hidden has zero non-hidden files, yet the program resolves its
remote folder chain — here even creating the folder (`files` grows from one
resource to two) — before the candidate loop then submits nothing. -/
theorem C6_counterexample_hidden_only_dir_resolves_folder :
    (processDirectory demoStore ["d"] [".h.mp4"] (fun _ => true)
        (fun _ => true) (fun j => j)).map
      (fun d => (d.didResolve, d.drive.files.length, d.submitted)) =
    Except.ok (true, 2, []) := rfl

/-- C6 (amended): only a directory with zero direct files OF ANY KIND is
skipped — for it no remote folder is resolved or created and no upload work
happens — and subdirectories are always still visited by the walk.  A
directory whose direct files are all hidden is NOT skipped: its remote
folder chain is resolved (creating folders as needed), although no upload
task is submitted for it. -/
theorem C6_skip_only_directories_with_no_files_at_all :
    (∀ (st : DriveState) (rp : List String) (u m : Nat → Bool)
        (sees : Nat → Nat),
      processDirectory st rp [] u m sees = Except.ok
        { drive := st, didResolve := false, submitted := [], tasks := []
          remaining := [] }) ∧
    (∀ (n : String) (subs : List LocalDir) (fs rp : List String)
        (t : List String × List String) (d : LocalDir),
      d ∈ subs → t ∈ walkTriples d (rp ++ [d.dirName]) →
      t ∈ walkTriples (LocalDir.mk n subs fs) rp) ∧
    (∀ (st : DriveState) (rp fs : List String) (u m : Nat → Bool)
        (sees : Nat → Nat) (d : DirRun),
      fs ≠ [] → processDirectory st rp fs u m sees = Except.ok d →
      d.didResolve = true) ∧
    (∀ (st : DriveState) (rp fs : List String) (u m : Nat → Bool)
        (sees : Nat → Nat) (d : DirRun),
      (∀ f ∈ fs, is_dotfile f = true) →
      processDirectory st rp fs u m sees = Except.ok d →
      d.submitted = [] ∧ d.tasks = []) := by
  refine ⟨fun st rp u m sees => rfl, ?_, ?_, ?_⟩
  · intro n subs fs rp t d hd ht
    rw [walkTriples]
    exact List.mem_cons_of_mem _ (walkForest_mem t subs rp d hd ht)
  · intro st rp fs u m sees d hne h
    have he : fs.isEmpty = false := by
      cases fs with
      | nil => exact absurd rfl hne
      | cons a tl => rfl
    rw [processDirectory, he] at h
    simp only [Bool.false_eq_true, if_false] at h
    cases hm : make_drive_videos_subdir st rp with
    | error e =>
      rw [hm] at h
      exact absurd h (by simp)
    | ok pr =>
      rw [hm] at h
      obtain ⟨dirId, st1⟩ := pr
      simp only [Except.ok.injEq] at h
      rw [← h]
  · intro st rp fs u m sees d hall h
    cases hfe : fs.isEmpty with
    | true =>
      rw [processDirectory, hfe] at h
      simp only [if_true] at h
      simp only [Except.ok.injEq] at h
      rw [← h]
      exact ⟨rfl, rfl⟩
    | false =>
      rw [processDirectory, hfe] at h
      simp only [Bool.false_eq_true, if_false] at h
      cases hm : make_drive_videos_subdir st rp with
      | error e =>
        rw [hm] at h
        exact absurd h (by simp)
      | ok pr =>
        rw [hm] at h
        obtain ⟨dirId, st1⟩ := pr
        simp only [Except.ok.injEq] at h
        have hsub : submittedFiles fs (drive_filenames st1 dirId) = [] :=
          submittedFiles_eq_nil _ _ (fun f hf => Or.inl (hall f hf))
        rw [← h]
        simp [hsub, mkTasks]

/-- The result record of processing a directory at relative path `d` whose
only direct file is hidden, starting from `demoStore`. -/
def hiddenOnlyDirRun : DirRun :=
  { drive :=
      { files := [videosFolder,
          { id := "created-0", title := "d", parents := ["vid"]
            mimeType := DRIVE_FOLDER_MIME_TYPE, trashed := false }]
        nextId := 1 }
    didResolve := true, submitted := [], tasks := []
    remaining := [".h.mp4"] }

/-- C6 witness: the amended claim applied at concrete inputs. -/
theorem C6_witness :
    processDirectory demoStore ["x"] [] (fun _ => true) (fun _ => true)
        (fun j => j) =
      Except.ok
        { drive := demoStore, didResolve := false, submitted := []
          tasks := [], remaining := [] } ∧
    hiddenOnlyDirRun.didResolve = true ∧
    hiddenOnlyDirRun.submitted = [] ∧ hiddenOnlyDirRun.tasks = [] :=
  ⟨C6_skip_only_directories_with_no_files_at_all.1 demoStore ["x"]
      (fun _ => true) (fun _ => true) (fun j => j),
    C6_skip_only_directories_with_no_files_at_all.2.2.1 demoStore ["d"]
      [".h.mp4"] (fun _ => true) (fun _ => true) (fun j => j)
      hiddenOnlyDirRun (by simp) rfl,
    C6_skip_only_directories_with_no_files_at_all.2.2.2 demoStore ["d"]
      [".h.mp4"] (fun _ => true) (fun _ => true) (fun j => j)
      hiddenOnlyDirRun (by decide) rfl⟩

/-! Claim C1. -/

/-- A local tree with a hidden directory `.hid` that contains a visible
file. -/
def hiddenDirTree : LocalDir :=
  LocalDir.mk "videos" [LocalDir.mk ".hid" [] ["clip.mp4"]] []

/-- C1 (code bug): `should_skip_directory` does flag `.hid`, and the
comprehension of line 170 would drop it — but line 168 rebinds `subdirs`
before the slice assignment, so the filtered list is written into a copy
and `os.walk` still descends into `.hid`; the visible file inside the
hidden directory is then submitted for upload. -/
theorem C1_hidden_directory_descended_file_uploaded :
    should_skip_directory ".hid" = true ∧
    prunedSubdirs [".hid"] = [] ∧
    walkTriples hiddenDirTree [] = [([], []), ([".hid"], ["clip.mp4"])] ∧
    (run (fun _ _ => true) (fun _ _ => true) promptSees demoStore
        (walkTriples hiddenDirTree [])).submitted =
      [([".hid"], "clip.mp4")] := by
  exact ⟨rfl, rfl, rfl, rfl⟩

/-! Claim C8. -/

/-- Upload-success flags that fail exactly the first task of each
directory (below: the task for `a.mp4`). -/
def failFirstUpload : List String → Nat → Bool := fun _ j => j != 0

/-- A run over one directory holding `a.mp4` and `b.mp4` in which the
upload of `a.mp4` fails; every task starts promptly. -/
def runFailA : LoopState :=
  run failFirstUpload (fun _ _ => true) promptSees demoStore
    [([], ["a.mp4", "b.mp4"])]

/-- C8 counterexample: in `runFailA` the task for `a.mp4` raised, the
sibling `b.mp4` was still submitted and the walk completed — the failure is
isolated — but NO error-level log entry exists anywhere in the run's logs:
the exception is captured by the discarded `Future` and never logged, so
the claim's "the error is logged" is false. -/
theorem C8_counterexample_failure_not_logged :
    runFailA.tasks.map (fun t => (t.file, t.outcome.raised)) =
      [("a.mp4", true), ("b.mp4", false)] ∧
    (runLogs runFailA).filter isErrorEntry = [] ∧
    runFailA.submitted = [([], "a.mp4"), ([], "b.mp4")] ∧
    runFailA.error? = none := by
  exact ⟨rfl, rfl, rfl, rfl⟩

/-- C8 (amended): an individual file's upload or relocation failure is
isolated to that file's task — the permit is still released, no
dispatcher-path error arises from it, and the set of submitted sibling
uploads is unchanged — but the error is NOT logged: the exception ends in
the discarded `Future`, and the task itself emits no error-level entry. -/
theorem C8_failures_isolated_but_never_logged :
    (∀ (f : String) (uOk mOk : Bool),
      (upload_this_file f uOk mOk).permitReleased = true ∧
      (upload_this_file f uOk mOk).logs.filter isErrorEntry = []) ∧
    (∀ (st : DriveState) (rp fs : List String) (u m u' m' : Nat → Bool)
        (sees sees' : Nat → Nat),
      (processDirectory st rp fs u m sees).map DirRun.submitted =
        (processDirectory st rp fs u' m' sees').map DirRun.submitted) := by
  constructor
  · intro f uOk mOk
    exact ⟨rfl, rfl⟩
  · intro st rp fs u m u' m' sees sees'
    cases hfe : fs.isEmpty with
    | true =>
      rw [processDirectory, processDirectory, hfe]
      simp
    | false =>
      rw [processDirectory, processDirectory, hfe]
      simp only [Bool.false_eq_true, if_false]
      cases hm : make_drive_videos_subdir st rp with
      | error e => rfl
      | ok pr => rfl

/-! Claim C3.  The closure capture in `upload_this_file` (see `obsIndex`)
lets a delayed task upload a different file than the one it was submitted
for, and a concrete schedule below breaks the claimed idempotence even
with every upload succeeding.  The development in this section proves the
complementary positive fact: under prompt task starts the second run
submits nothing — a replay argument over the grown store (the store only
ever grows by appended resources, and the program always takes the FIRST
query match, so earlier resolutions stay valid).  Together the two results
isolate the capture bug as the sole obstruction to the claim. -/

/-- `st'` holds `st`'s resources (in order) plus appended ones. -/
def Ext0 (st st' : DriveState) : Prop :=
  ∃ extra, st'.files = st.files ++ extra

/-- `st'` extends `st` by appended resources, none of which is parented at
the `"root"` sentinel (resources this program creates are parented at real
resource ids). -/
def ExtP (st st' : DriveState) : Prop :=
  ∃ extra, st'.files = st.files ++ extra ∧
    ∀ f ∈ extra, f.parents.contains "root" = false

/-- No resource id in the store is the literal alias `"root"`.  Drive ids
are opaque strings distinct from the alias, so this holds of any store the
program can actually face. -/
def NoRootId (st : DriveState) : Prop := ∀ f ∈ st.files, f.id ≠ "root"

theorem Ext0_refl (st : DriveState) : Ext0 st st := ⟨[], by simp⟩

theorem Ext0_trans {s1 s2 s3 : DriveState} (h1 : Ext0 s1 s2)
    (h2 : Ext0 s2 s3) : Ext0 s1 s3 := by
  obtain ⟨e1, he1⟩ := h1
  obtain ⟨e2, he2⟩ := h2
  exact ⟨e1 ++ e2, by rw [he2, he1, List.append_assoc]⟩

theorem ExtP_refl (st : DriveState) : ExtP st st := ⟨[], by simp⟩

theorem ExtP_trans {s1 s2 s3 : DriveState} (h1 : ExtP s1 s2)
    (h2 : ExtP s2 s3) : ExtP s1 s3 := by
  obtain ⟨e1, he1, hp1⟩ := h1
  obtain ⟨e2, he2, hp2⟩ := h2
  refine ⟨e1 ++ e2, by rw [he2, he1, List.append_assoc], ?_⟩
  intro f hf
  rcases List.mem_append.mp hf with h | h
  · exact hp1 f h
  · exact hp2 f h

theorem ExtP_toExt0 {s1 s2 : DriveState} (h : ExtP s1 s2) : Ext0 s1 s2 := by
  obtain ⟨e, he, _⟩ := h
  exact ⟨e, he⟩

theorem find_append_of_some {α : Type} (l l' : List α) (p : α → Bool)
    (a : α) (h : l.find? p = some a) : (l ++ l').find? p = some a := by
  rw [List.find?_append, h]
  rfl

/-- Appended resources not parented at `"root"` never match the root-scoped
by-name query, so that query's match list is unchanged. -/
theorem rootFilter_eq {st st' : DriveState} (n : String) (h : ExtP st st') :
    st'.files.filter (dirIdQuery "root" n) =
      st.files.filter (dirIdQuery "root" n) := by
  obtain ⟨extra, he, hp⟩ := h
  rw [he, List.filter_append]
  have hnil : extra.filter (dirIdQuery "root" n) = [] := by
    rw [List.filter_eq_nil_iff]
    intro f hf
    simp only [dirIdQuery, hp f hf, Bool.false_and, Bool.false_eq_true,
      not_false_eq_true]
  rw [hnil, List.append_nil]

theorem get_drive_dir_id_congr {st st' : DriveState} (pid : Option String)
    (n : String)
    (h : st.files.filter (dirIdQuery (actualParentId pid) n) =
      st'.files.filter (dirIdQuery (actualParentId pid) n)) :
    get_drive_dir_id st pid n = get_drive_dir_id st' pid n := by
  simp only [get_drive_dir_id]
  rw [h]

theorem make_drive_dir_files (st : DriveState) (p s : String) :
    (make_drive_dir st p s).2.files =
      st.files ++ [(make_drive_dir st p s).1] := rfl

/-- The folder `make_drive_dir` creates matches the per-segment listing
query under its parent and carries the requested title. -/
theorem make_drive_dir_matches (st : DriveState) (p s : String) :
    subdirListQuery p (make_drive_dir st p s).1 = true ∧
      ((make_drive_dir st p s).1.title == s) = true := by
  constructor
  · simp [make_drive_dir, subdirListQuery, parent_descriptor]
  · simp [make_drive_dir]

/-- The store only grows across `resolveSegment`. -/
theorem resolveSegment_ext0 (st : DriveState) (p s : String) :
    Ext0 st (resolveSegment st p s).2 := by
  rw [resolveSegment]
  cases hf : (st.files.filter (subdirListQuery p)).find?
      (fun d => d.title == s) with
  | some d => exact Ext0_refl st
  | none => exact ⟨[(make_drive_dir st p s).1], make_drive_dir_files st p s⟩

/-- Replay: a segment resolution stays valid against any later store that
extends the state the resolution produced — the same id is then found by
pure lookup, because matches are taken in listing order and the store only
gained appended entries. -/
theorem resolveSegment_replay {st st1 stE : DriveState} {p s q : String}
    (h : resolveSegment st p s = (q, st1)) (hE : Ext0 st1 stE) :
    resolveSegment stE p s = (q, stE) := by
  obtain ⟨e, he⟩ := hE
  cases hf : (st.files.filter (subdirListQuery p)).find?
      (fun d => d.title == s) with
  | some d =>
    rw [resolveSegment, hf] at h
    injection h with hq hst
    subst hq
    subst hst
    rw [resolveSegment, he, List.filter_append,
      find_append_of_some _ _ _ _ hf]
  | none =>
    rw [resolveSegment, hf] at h
    injection h with hq hst
    subst hq
    rw [← hst, make_drive_dir_files] at he
    have hm := make_drive_dir_matches st p s
    have hsome : (stE.files.filter (subdirListQuery p)).find?
        (fun d => d.title == s) = some (make_drive_dir st p s).1 := by
      rw [he, List.append_assoc, List.filter_append,
        List.find?_append, hf, Option.none_or, List.filter_append]
      have hone : List.filter (subdirListQuery p)
          [(make_drive_dir st p s).1] = [(make_drive_dir st p s).1] := by
        simp [List.filter, hm.1]
      rw [hone]
      rw [List.cons_append]
      exact List.find?_cons_of_pos _ hm.2
    rw [resolveSegment, hsome]

theorem chain_ext0 (parts : List String) :
    ∀ (p : String) (st : DriveState),
      Ext0 st (parts.foldl segStep (p, st)).2 := by
  induction parts with
  | nil => intro p st; exact Ext0_refl st
  | cons s rest ih =>
    intro p st
    rw [List.foldl_cons]
    cases hrs : segStep (p, st) s with
    | mk q st1 =>
      have h1 : Ext0 st st1 := by
        have := resolveSegment_ext0 st p s
        rw [segStep] at hrs
        rw [hrs] at this
        exact this
      exact Ext0_trans h1 (ih q st1)

theorem chain_replay (parts : List String) :
    ∀ (p : String) (st st' stE : DriveState) (q : String),
      parts.foldl segStep (p, st) = (q, st') → Ext0 st' stE →
      parts.foldl segStep (p, stE) = (q, stE) := by
  induction parts with
  | nil =>
    intro p st st' stE q h hE
    rw [List.foldl_nil] at h
    injection h with hq hst
    subst hq
    rfl
  | cons s rest ih =>
    intro p st st' stE q h hE
    rw [List.foldl_cons] at h
    cases hrs : segStep (p, st) s with
    | mk q1 st1 =>
      rw [hrs] at h
      have hmid : Ext0 st1 st' := by
        have := chain_ext0 rest q1 st1
        rw [h] at this
        exact this
      have hseg : resolveSegment stE p s = (q1, stE) :=
        resolveSegment_replay (by rw [segStep] at hrs; exact hrs)
          (Ext0_trans hmid hE)
      rw [List.foldl_cons]
      have hstep : segStep (p, stE) s = (q1, stE) := by
        rw [segStep]
        exact hseg
      rw [hstep]
      exact ih q1 st1 st' stE q h hE

/-- Replay of a whole chain resolution: once a run has resolved (and where
needed created) the folder chain for a relative path, any later state that
extends the post-resolution store resolves the same path to the same id,
creating nothing. -/
theorem make_replay {st st' stE : DriveState} {parts : List String}
    {dirId : String}
    (h : make_drive_videos_subdir st parts = Except.ok (dirId, st'))
    (hE : Ext0 st' stE)
    (hroot : st.files.filter (dirIdQuery "root" DRIVE_VIDEOS_DIR_NAME) =
      stE.files.filter (dirIdQuery "root" DRIVE_VIDEOS_DIR_NAME)) :
    make_drive_videos_subdir stE parts = Except.ok (dirId, stE) := by
  rw [make_drive_videos_subdir] at h
  have hg : get_drive_dir_id stE none DRIVE_VIDEOS_DIR_NAME =
      get_drive_dir_id st none DRIVE_VIDEOS_DIR_NAME :=
    (get_drive_dir_id_congr none DRIVE_VIDEOS_DIR_NAME hroot).symm
  cases hget : get_drive_dir_id st none DRIVE_VIDEOS_DIR_NAME with
  | error e =>
    rw [hget] at h
    exact absurd h (by simp)
  | ok r =>
    cases r with
    | none =>
      rw [hget] at h
      exact absurd h (by simp)
    | some rootId =>
      rw [hget] at h
      simp only [Except.ok.injEq] at h
      rw [make_drive_videos_subdir, hg, hget]
      show Except.ok (parts.foldl segStep (rootId, stE)) =
        Except.ok (dirId, stE)
      rw [chain_replay parts rootId st st' stE dirId h hE]

theorem freshId_ne_root (n : Nat) : freshId n ≠ "root" := by
  intro h
  have hlen : (freshId n).length = ("root" : String).length := by rw [h]
  rw [freshId, String.length_append] at hlen
  have h8 : ("created-" : String).length = 8 := rfl
  have h4 : ("root" : String).length = 4 := rfl
  omega

theorem make_drive_dir_fst_id (st : DriveState) (p s : String) :
    (make_drive_dir st p s).1.id = freshId st.nextId := rfl

theorem make_drive_dir_fst_parents (st : DriveState) (p s : String) :
    (make_drive_dir st p s).1.parents = [parent_descriptor p] := rfl

theorem get_ok_some_mem {st : DriveState} {pid : Option String} {n r : String}
    (h : get_drive_dir_id st pid n = Except.ok (some r)) :
    ∃ mf ∈ st.files, r = mf.id := by
  simp only [get_drive_dir_id] at h
  cases hl : st.files.filter (dirIdQuery (actualParentId pid) n) with
  | nil =>
    rw [hl] at h
    simp at h
  | cons a tl =>
    cases tl with
    | nil =>
      rw [hl] at h
      simp only [Except.ok.injEq, Option.some.injEq] at h
      refine ⟨a, ?_, h.symm⟩
      have ha : a ∈ st.files.filter (dirIdQuery (actualParentId pid) n) := by
        rw [hl]
        exact List.mem_cons_self a []
      exact List.mem_of_mem_filter ha
    | cons b tl2 =>
      rw [hl] at h
      simp at h

theorem resolveSegment_good {st st1 : DriveState} {p s q : String}
    (hN : NoRootId st) (hp : p ≠ "root")
    (h : resolveSegment st p s = (q, st1)) :
    q ≠ "root" ∧ NoRootId st1 ∧ ExtP st st1 := by
  cases hf : (st.files.filter (subdirListQuery p)).find?
      (fun d => d.title == s) with
  | some d =>
    rw [resolveSegment, hf] at h
    injection h with hq hst
    subst hq
    subst hst
    have hd : d ∈ st.files :=
      List.mem_of_mem_filter (List.mem_of_find?_eq_some hf)
    exact ⟨hN d hd, hN, ExtP_refl st⟩
  | none =>
    rw [resolveSegment, hf] at h
    injection h with hq hst
    subst hq
    refine ⟨?_, ?_, ?_⟩
    · rw [make_drive_dir_fst_id]
      exact freshId_ne_root st.nextId
    · intro f hf2
      rw [← hst, make_drive_dir_files] at hf2
      rcases List.mem_append.mp hf2 with hold | hnew
      · exact hN f hold
      · rw [List.mem_singleton.mp hnew, make_drive_dir_fst_id]
        exact freshId_ne_root st.nextId
    · refine ⟨[(make_drive_dir st p s).1], ?_, ?_⟩
      · rw [← hst]
        exact make_drive_dir_files st p s
      · intro f hf2
        rw [List.mem_singleton.mp hf2, make_drive_dir_fst_parents]
        rw [contains_eq_false_iff]
        intro hmem
        exact hp ((List.mem_singleton.mp hmem).symm)

theorem chain_good (parts : List String) :
    ∀ (p : String) (st : DriveState) (q : String) (st' : DriveState),
      NoRootId st → p ≠ "root" →
      parts.foldl segStep (p, st) = (q, st') →
      q ≠ "root" ∧ NoRootId st' ∧ ExtP st st' := by
  induction parts with
  | nil =>
    intro p st q st' hN hp h
    rw [List.foldl_nil] at h
    injection h with hq hst
    subst hq
    subst hst
    exact ⟨hp, hN, ExtP_refl st⟩
  | cons s rest ih =>
    intro p st q st' hN hp h
    rw [List.foldl_cons] at h
    cases hrs : segStep (p, st) s with
    | mk q1 st1 =>
      rw [hrs] at h
      rw [segStep] at hrs
      obtain ⟨hq1, hN1, hE1⟩ := resolveSegment_good hN hp hrs
      obtain ⟨hq, hN', hE'⟩ := ih q1 st1 q st' hN1 hq1 h
      exact ⟨hq, hN', ExtP_trans hE1 hE'⟩

theorem make_good {st st' : DriveState} {parts : List String}
    {dirId : String} (hN : NoRootId st)
    (h : make_drive_videos_subdir st parts = Except.ok (dirId, st')) :
    dirId ≠ "root" ∧ NoRootId st' ∧ ExtP st st' := by
  rw [make_drive_videos_subdir] at h
  cases hget : get_drive_dir_id st none DRIVE_VIDEOS_DIR_NAME with
  | error e =>
    rw [hget] at h
    exact absurd h (by simp)
  | ok r =>
    cases r with
    | none =>
      rw [hget] at h
      exact absurd h (by simp)
    | some rootId =>
      rw [hget] at h
      simp only [Except.ok.injEq] at h
      obtain ⟨mf, hmf, hrid⟩ := get_ok_some_mem hget
      have hrootne : rootId ≠ "root" := by
        rw [hrid]
        exact hN mf hmf
      exact chain_good parts rootId st dirId st' hN hrootne h

theorem addUpload_files (st : DriveState) (dirId f : String) :
    (addUpload st dirId f).files =
      st.files ++ [uploadedDriveFile st.nextId dirId f] := rfl

theorem uploadedDriveFile_matches (n : Nat) (dirId f : String) :
    existingFilesQuery dirId (uploadedDriveFile n dirId f) = true := by
  simp [existingFilesQuery, uploadedDriveFile, parent_descriptor]
  decide

theorem mem_drive_filenames_addUpload (st : DriveState) (dirId f : String) :
    f ∈ drive_filenames (addUpload st dirId f) dirId := by
  rw [drive_filenames, addUpload_files, List.filter_append, List.map_append]
  apply List.mem_append_right
  have hone : List.filter (existingFilesQuery dirId)
      [uploadedDriveFile st.nextId dirId f] =
        [uploadedDriveFile st.nextId dirId f] := by
    simp [List.filter, uploadedDriveFile_matches]
  rw [hone]
  simp [uploadedDriveFile]

theorem drive_filenames_mono {st st' : DriveState} {dirId f : String}
    (hE : Ext0 st st') (h : f ∈ drive_filenames st dirId) :
    f ∈ drive_filenames st' dirId := by
  obtain ⟨e, he⟩ := hE
  rw [drive_filenames] at h ⊢
  rw [he, List.filter_append, List.map_append]
  exact List.mem_append_left _ h

theorem runTasks_cons (dirId : String) (t : String × TaskOutcome)
    (rest : List (String × TaskOutcome)) (st : DriveState) :
    runTasks dirId (t :: rest) st =
      runTasks dirId rest
        (if t.2.uploadedRemotely then addUpload st dirId t.1 else st) := rfl

theorem runTasks_ext0 (dirId : String) (tasks : List (String × TaskOutcome)) :
    ∀ st : DriveState, Ext0 st (runTasks dirId tasks st) := by
  induction tasks with
  | nil => intro st; exact Ext0_refl st
  | cons t rest ih =>
    intro st
    rw [runTasks_cons]
    cases hcond : t.2.uploadedRemotely with
    | false =>
      simp only [Bool.false_eq_true, if_false]
      exact ih st
    | true =>
      simp only [if_true]
      exact Ext0_trans ⟨_, addUpload_files st dirId t.1⟩ (ih _)

theorem addUpload_good {st : DriveState} {dirId : String} (f : String)
    (hN : NoRootId st) (hid : dirId ≠ "root") :
    NoRootId (addUpload st dirId f) ∧ ExtP st (addUpload st dirId f) := by
  constructor
  · intro g hg
    rw [addUpload_files] at hg
    rcases List.mem_append.mp hg with hold | hnew
    · exact hN g hold
    · rw [List.mem_singleton.mp hnew]
      exact freshId_ne_root st.nextId
  · refine ⟨[uploadedDriveFile st.nextId dirId f], addUpload_files st dirId f, ?_⟩
    intro g hg
    rw [List.mem_singleton.mp hg]
    show ([parent_descriptor dirId] : List String).contains "root" = false
    rw [contains_eq_false_iff]
    intro hmem
    exact hid ((List.mem_singleton.mp hmem).symm)

theorem runTasks_good (dirId : String) (hid : dirId ≠ "root")
    (tasks : List (String × TaskOutcome)) :
    ∀ st : DriveState, NoRootId st →
      NoRootId (runTasks dirId tasks st) ∧ ExtP st (runTasks dirId tasks st) := by
  induction tasks with
  | nil => intro st hN; exact ⟨hN, ExtP_refl st⟩
  | cons t rest ih =>
    intro st hN
    rw [runTasks_cons]
    cases hcond : t.2.uploadedRemotely with
    | false =>
      simp only [Bool.false_eq_true, if_false]
      exact ih st hN
    | true =>
      simp only [if_true]
      obtain ⟨hN1, hE1⟩ := addUpload_good t.1 hN hid
      obtain ⟨hN2, hE2⟩ := ih _ hN1
      exact ⟨hN2, ExtP_trans hE1 hE2⟩

theorem runTasks_mem_uploaded (dirId : String)
    (tasks : List (String × TaskOutcome)) :
    ∀ (st : DriveState) (f : String) (out : TaskOutcome),
      (f, out) ∈ tasks → out.uploadedRemotely = true →
      f ∈ drive_filenames (runTasks dirId tasks st) dirId := by
  induction tasks with
  | nil =>
    intro st f out hmem
    simp at hmem
  | cons t rest ih =>
    intro st f out hmem hup
    rw [runTasks_cons]
    rcases List.mem_cons.mp hmem with hh | hr
    · have ht1 : t.1 = f := by rw [← hh]
      have ht2 : t.2.uploadedRemotely = true := by rw [← hh]; exact hup
      rw [ht2, if_pos rfl, ht1]
      exact drive_filenames_mono (runTasks_ext0 dirId rest _)
        (mem_drive_filenames_addUpload st dirId f)
    · exact ih _ f out hr hup

theorem mkTasks_nil (u m : Nat → Bool) (sees : Nat → Nat) :
    mkTasks [] u m sees = [] := rfl

/-- Under the prompt schedule every submitted candidate is observed by its
own task, and with its upload succeeding the task puts that very name into
the remote store. -/
theorem mkTasks_mem_prompt (subs : List String) (m : Nat → Bool)
    (f : String) (hf : f ∈ subs) :
    ∃ out, (f, out) ∈ mkTasks subs (fun _ => true) m (fun j => j) ∧
      out.uploadedRemotely = true := by
  obtain ⟨i, hi, hget⟩ := List.mem_iff_getElem.mp hf
  have hobs : obsIndex subs.length (fun j => j) i = i := by
    unfold obsIndex
    show max i (min i (subs.length - 1)) = i
    omega
  have hgd : subs.getD (obsIndex subs.length (fun j => j) i) "" = f := by
    rw [hobs, List.getD_eq_getElem subs "" hi, hget]
  refine ⟨upload_this_file f true (m i), ?_, rfl⟩
  rw [mkTasks]
  apply List.mem_map.mpr
  refine ⟨i, List.mem_range.mpr hi, ?_⟩
  simp only [hgd]

theorem processDirectory_empty {st : DriveState} {rp fs : List String}
    {u m : Nat → Bool} {sees : Nat → Nat} (hfe : fs.isEmpty = true) :
    processDirectory st rp fs u m sees = Except.ok
      { drive := st, didResolve := false, submitted := [], tasks := []
        remaining := fs } := by
  rw [processDirectory, hfe]
  rfl

theorem processDirectory_ok_elim {st : DriveState} {rp fs : List String}
    {u m : Nat → Bool} {sees : Nat → Nat} {d : DirRun}
    (hfe : fs.isEmpty = false)
    (h : processDirectory st rp fs u m sees = Except.ok d) :
    ∃ dirId st1, make_drive_videos_subdir st rp = Except.ok (dirId, st1) ∧
      d = { drive := runTasks dirId
              (mkTasks (submittedFiles fs (drive_filenames st1 dirId))
                u m sees) st1
            didResolve := true
            submitted := submittedFiles fs (drive_filenames st1 dirId)
            tasks := mkTasks (submittedFiles fs (drive_filenames st1 dirId))
              u m sees
            remaining := fs.filter (fun f =>
              !((mkTasks (submittedFiles fs (drive_filenames st1 dirId))
                  u m sees).any
                (fun t => t.1 == f && !t.2.atSourcePath))) } := by
  rw [processDirectory, hfe] at h
  simp only [Bool.false_eq_true, if_false] at h
  cases hm : make_drive_videos_subdir st rp with
  | error e =>
    rw [hm] at h
    exact absurd h (by simp)
  | ok pr =>
    obtain ⟨dirId, st1⟩ := pr
    rw [hm] at h
    simp only [Except.ok.injEq] at h
    exact ⟨dirId, st1, rfl, h.symm⟩

theorem processDirectory_good {st : DriveState} {rp fs : List String}
    {u m : Nat → Bool} {sees : Nat → Nat} {d : DirRun} (hN : NoRootId st)
    (h : processDirectory st rp fs u m sees = Except.ok d) :
    NoRootId d.drive ∧ ExtP st d.drive := by
  cases hfe : fs.isEmpty with
  | true =>
    rw [processDirectory_empty hfe] at h
    simp only [Except.ok.injEq] at h
    rw [← h]
    exact ⟨hN, ExtP_refl st⟩
  | false =>
    obtain ⟨dirId, st1, hmk, hd⟩ := processDirectory_ok_elim hfe h
    obtain ⟨hid, hN1, hE1⟩ := make_good hN hmk
    obtain ⟨hN2, hE2⟩ := runTasks_good dirId hid _ st1 hN1
    rw [hd]
    exact ⟨hN2, ExtP_trans hE1 hE2⟩

/-- The witness that a directory needs no further upload work: either it
has no files left, or its folder chain resolves (by pure lookup) and every
remaining file is hidden or already present remotely by name. -/
def DirDone (stE : DriveState) (rp rem : List String) : Prop :=
  rem = [] ∨ ∃ dirId,
    make_drive_videos_subdir stE rp = Except.ok (dirId, stE) ∧
    ∀ f ∈ rem, is_dotfile f = true ∨ f ∈ drive_filenames stE dirId

theorem DirDone_mono {st stE : DriveState} {rp rem : List String}
    (h : DirDone st rp rem) (hE : Ext0 st stE)
    (hroot : st.files.filter (dirIdQuery "root" DRIVE_VIDEOS_DIR_NAME) =
      stE.files.filter (dirIdQuery "root" DRIVE_VIDEOS_DIR_NAME)) :
    DirDone stE rp rem := by
  rcases h with h | ⟨dirId, hmk, hall⟩
  · exact Or.inl h
  · refine Or.inr ⟨dirId, make_replay hmk hE hroot, ?_⟩
    intro f hf
    rcases hall f hf with hd | hm
    · exact Or.inl hd
    · exact Or.inr (drive_filenames_mono hE hm)

/-- After a directory is processed with every upload succeeding and every
task starting promptly (observing its own iteration's bindings), every
file still at its source path is hidden or present remotely, and the
folder chain resolves against the post state by pure lookup. -/
theorem processDirectory_establishes {st : DriveState} {rp fs : List String}
    {m : Nat → Bool} {d : DirRun} (hN : NoRootId st)
    (h : processDirectory st rp fs (fun _ => true) m (fun j => j) =
      Except.ok d) :
    DirDone d.drive rp d.remaining := by
  cases hfe : fs.isEmpty with
  | true =>
    rw [processDirectory_empty hfe] at h
    simp only [Except.ok.injEq] at h
    rw [← h]
    exact Or.inl (List.isEmpty_iff.mp hfe)
  | false =>
    obtain ⟨dirId, st1, hmk, hd⟩ := processDirectory_ok_elim hfe h
    obtain ⟨hid, hN1, hE1⟩ := make_good hN hmk
    obtain ⟨hN2, hE2⟩ := runTasks_good dirId hid
      (mkTasks (submittedFiles fs (drive_filenames st1 dirId))
        (fun _ => true) m (fun j => j)) st1 hN1
    have hEd : Ext0 st1 d.drive := by
      rw [hd]
      exact runTasks_ext0 dirId _ st1
    have hrootd :
        st1.files.filter (dirIdQuery "root" DRIVE_VIDEOS_DIR_NAME) =
          d.drive.files.filter (dirIdQuery "root" DRIVE_VIDEOS_DIR_NAME) := by
      rw [hd]
      exact (rootFilter_eq DRIVE_VIDEOS_DIR_NAME hE2).symm
    have hrootsd :
        st.files.filter (dirIdQuery "root" DRIVE_VIDEOS_DIR_NAME) =
          d.drive.files.filter (dirIdQuery "root" DRIVE_VIDEOS_DIR_NAME) := by
      rw [← hrootd]
      exact (rootFilter_eq DRIVE_VIDEOS_DIR_NAME hE1).symm
    refine Or.inr ⟨dirId, make_replay hmk hEd hrootsd, ?_⟩
    intro f hf
    rw [hd] at hf
    have hmem := List.mem_filter.mp hf
    by_cases hdot : is_dotfile f = true
    · exact Or.inl hdot
    · right
      by_cases hsub : f ∈ submittedFiles fs (drive_filenames st1 dirId)
      · obtain ⟨out, htask, hup⟩ :=
          mkTasks_mem_prompt (submittedFiles fs (drive_filenames st1 dirId))
            m f hsub
        have := runTasks_mem_uploaded dirId _ st1 f out htask hup
        rw [hd]
        exact this
      · have hdotf : is_dotfile f = false := by
          cases hcase : is_dotfile f
          · rfl
          · exact absurd hcase hdot
        have hR : f ∈ drive_filenames st1 dirId := by
          by_contra hnR
          exact hsub ((submittedFiles_mem fs (drive_filenames st1 dirId)
            f).mpr ⟨hmem.1, hnR, hdotf⟩)
        exact drive_filenames_mono hEd hR

theorem stepDir_skip {u m : List String → Nat → Bool}
    {sees : List String → Nat → Nat} {ls : LoopState}
    {t : List String × List String} (h : ls.error?.isSome = true) :
    stepDir u m sees ls t = ls := by
  rw [stepDir, if_pos h]

theorem stepDir_err {u m : List String → Nat → Bool}
    {sees : List String → Nat → Nat} {ls : LoopState}
    {t : List String × List String} {e : DriveError}
    (h1 : ls.error? = none)
    (h2 : processDirectory ls.drive t.1 t.2 (u t.1) (m t.1) (sees t.1) =
      Except.error e) :
    stepDir u m sees ls t = { ls with error? := some e } := by
  rw [stepDir, if_neg (by simp [h1]), h2]

theorem stepDir_ok {u m : List String → Nat → Bool}
    {sees : List String → Nat → Nat} {ls : LoopState}
    {t : List String × List String} {d : DirRun}
    (h1 : ls.error? = none)
    (h2 : processDirectory ls.drive t.1 t.2 (u t.1) (m t.1) (sees t.1) =
      Except.ok d) :
    stepDir u m sees ls t =
      { drive := d.drive
        submitted := ls.submitted ++ d.submitted.map (fun f => (t.1, f))
        tasks := ls.tasks ++ d.tasks.map (fun p => ⟨t.1, p.1, p.2⟩)
        remainingDirs := ls.remainingDirs ++ [(t.1, d.remaining)]
        error? := none } := by
  rw [stepDir, if_neg (by simp [h1]), h2]

/-- Invariant carried along a first run with all uploads succeeding and
prompt task starts: all resource ids stay distinct from the root alias,
the store only grows by resources not parented at the alias, and every
directory processed so far is fully done with respect to the current
store. -/
theorem run1_inv (st0 : DriveState) (mOk : List String → Nat → Bool)
    (dirs : List (List String × List String)) :
    ∀ ls : LoopState, NoRootId ls.drive → ExtP st0 ls.drive →
      (∀ pr ∈ ls.remainingDirs, DirDone ls.drive pr.1 pr.2) →
      NoRootId
        (dirs.foldl (stepDir (fun _ _ => true) mOk promptSees) ls).drive ∧
      ExtP st0
        (dirs.foldl (stepDir (fun _ _ => true) mOk promptSees) ls).drive ∧
      (∀ pr ∈ (dirs.foldl
          (stepDir (fun _ _ => true) mOk promptSees) ls).remainingDirs,
        DirDone
          (dirs.foldl (stepDir (fun _ _ => true) mOk promptSees) ls).drive
          pr.1 pr.2) := by
  induction dirs with
  | nil =>
    intro ls h1 h2 h3
    exact ⟨h1, h2, h3⟩
  | cons t rest ih =>
    intro ls h1 h2 h3
    rw [List.foldl_cons]
    by_cases herr : ls.error?.isSome = true
    · rw [stepDir_skip herr]
      exact ih ls h1 h2 h3
    · have hnone : ls.error? = none := Option.not_isSome_iff_eq_none.mp herr
      cases hp : processDirectory ls.drive t.1 t.2
          ((fun _ _ => true) t.1) (mOk t.1) (promptSees t.1) with
      | error e =>
        rw [stepDir_err hnone hp]
        exact ih _ h1 h2 h3
      | ok d =>
        rw [stepDir_ok hnone hp]
        obtain ⟨hNd, hEd⟩ := processDirectory_good h1 hp
        have hE0d : ExtP st0 d.drive := ExtP_trans h2 hEd
        have hrootEq :
            ls.drive.files.filter
              (dirIdQuery "root" DRIVE_VIDEOS_DIR_NAME) =
            d.drive.files.filter
              (dirIdQuery "root" DRIVE_VIDEOS_DIR_NAME) := by
          rw [rootFilter_eq DRIVE_VIDEOS_DIR_NAME h2,
            rootFilter_eq DRIVE_VIDEOS_DIR_NAME hE0d]
        apply ih
        · exact hNd
        · exact hE0d
        · intro pr hpr
          rcases List.mem_append.mp hpr with hold | hnew
          · exact DirDone_mono (h3 pr hold) (ExtP_toExt0 hEd) hrootEq
          · have hpr1 : pr = (t.1, d.remaining) := List.mem_singleton.mp hnew
            rw [hpr1]
            exact processDirectory_establishes h1 hp

/-- A done directory is processed without error, without touching the
store, and submits nothing — whatever this run's task-success flags and
task-start schedule are. -/
theorem DirDone_process {stE : DriveState} {rp rem : List String}
    (h : DirDone stE rp rem) (u' m' : Nat → Bool) (sees' : Nat → Nat) :
    ∃ d, processDirectory stE rp rem u' m' sees' = Except.ok d ∧
      d.drive = stE ∧ d.submitted = [] := by
  rcases h with hnil | ⟨dirId, hmk, hall⟩
  · subst hnil
    exact ⟨_, processDirectory_empty rfl, rfl, rfl⟩
  · cases hfe : rem.isEmpty with
    | true =>
      exact ⟨_, processDirectory_empty hfe, rfl, rfl⟩
    | false =>
      have hsubs : submittedFiles rem (drive_filenames stE dirId) = [] :=
        submittedFiles_eq_nil _ _ hall
      cases hres : processDirectory stE rp rem u' m' sees' with
      | error e =>
        rw [processDirectory, hfe] at hres
        simp only [Bool.false_eq_true, if_false] at hres
        rw [hmk] at hres
        exact absurd hres (by simp)
      | ok d =>
        obtain ⟨dirId2, st2, hmk2, hd⟩ := processDirectory_ok_elim hfe hres
        rw [hmk] at hmk2
        simp only [Except.ok.injEq, Prod.mk.injEq] at hmk2
        obtain ⟨hdid, hst⟩ := hmk2
        refine ⟨d, rfl, ?_, ?_⟩
        · rw [hd, ← hdid, ← hst, hsubs]
          simp [mkTasks_nil, runTasks]
        · rw [hd, ← hdid, ← hst]
          exact hsubs

/-- A second pass over directories that are all done keeps the store,
stays error-free, and accumulates no submissions, under any flags and any
schedule. -/
theorem run2_noop (stE : DriveState) (u m : List String → Nat → Bool)
    (sees : List String → Nat → Nat)
    (dirs2 : List (List String × List String)) :
    ∀ ls : LoopState, ls.drive = stE → ls.error? = none →
      ls.submitted = [] →
      (∀ pr ∈ dirs2, DirDone stE pr.1 pr.2) →
      (dirs2.foldl (stepDir u m sees) ls).submitted = [] ∧
        (dirs2.foldl (stepDir u m sees) ls).error? = none := by
  induction dirs2 with
  | nil =>
    intro ls h1 h2 h3 _
    rw [List.foldl_nil]
    exact ⟨h3, h2⟩
  | cons t rest ih =>
    intro ls h1 h2 h3 hdd
    rw [List.foldl_cons]
    obtain ⟨d, hpd, hdrive, hsub⟩ :=
      DirDone_process (hdd t (List.mem_cons_self t rest)) (u t.1) (m t.1)
        (sees t.1)
    rw [← h1] at hpd
    rw [stepDir_ok h2 hpd]
    apply ih
    · exact hdrive
    · rfl
    · simp [h3, hsub]
    · intro pr hpr
      exact hdd pr (List.mem_cons_of_mem t hpr)

/-- Complement to the C3 capture bug: when every task starts promptly —
each task observes the bindings of its own iteration, which is the
behavior a reimplementation with explicit immutable task parameters
(spec §9) always has — an error-free first run whose uploads all succeed
(relocations may or may not) leaves a state on which a second run, under
ANY flags and ANY schedule, submits no upload task and raises no error.
`NoRootId` states that no remote resource id equals the literal parent
alias `"root"`, which is true of real Drive ids. -/
theorem second_run_noop_of_prompt_tasks (st0 : DriveState)
    (dirs : List (List String × List String))
    (mOk uOk2 mOk2 : List String → Nat → Bool)
    (sees2 : List String → Nat → Nat)
    (hids : NoRootId st0)
    (_hok : (run (fun _ _ => true) mOk promptSees st0 dirs).error? = none) :
    (run uOk2 mOk2 sees2
      (run (fun _ _ => true) mOk promptSees st0 dirs).drive
      (run (fun _ _ => true) mOk promptSees st0 dirs).remainingDirs
      ).submitted = [] ∧
    (run uOk2 mOk2 sees2
      (run (fun _ _ => true) mOk promptSees st0 dirs).drive
      (run (fun _ _ => true) mOk promptSees st0 dirs).remainingDirs
      ).error? = none := by
  obtain ⟨hN, hExt, hdd⟩ := run1_inv st0 mOk dirs (initLoopState st0) hids
    (ExtP_refl st0) (by intro pr hpr; simp [initLoopState] at hpr)
  rw [run]
  exact run2_noop _ uOk2 mOk2 sees2 _ (initLoopState _) rfl rfl rfl hdd

/-- Concrete instance of `second_run_noop_of_prompt_tasks`: one directory
with one file; the first run uploads and moves it, the second run submits
nothing and raises no error. -/
theorem second_run_noop_prompt_instance :
    (run (fun _ _ => true) (fun _ _ => true) promptSees
      (run (fun _ _ => true) (fun _ _ => true) promptSees demoStore
        [([], ["a.mp4"])]).drive
      (run (fun _ _ => true) (fun _ _ => true) promptSees demoStore
        [([], ["a.mp4"])]).remainingDirs).submitted = [] ∧
    (run (fun _ _ => true) (fun _ _ => true) promptSees
      (run (fun _ _ => true) (fun _ _ => true) promptSees demoStore
        [([], ["a.mp4"])]).drive
      (run (fun _ _ => true) (fun _ _ => true) promptSees demoStore
        [([], ["a.mp4"])]).remainingDirs).error? = none :=
  second_run_noop_of_prompt_tasks demoStore [([], ["a.mp4"])]
    (fun _ _ => true) (fun _ _ => true) (fun _ _ => true) promptSees
    (by intro f hf
        simp only [demoStore, videosFolder] at hf
        rcases List.mem_singleton.mp hf with rfl
        decide)
    rfl

/-- A schedule in which every task of a directory observes the bindings of
candidate iteration 1: the task submitted for the first candidate starts
only after the dispatcher has rebound `filepath` to the second candidate —
one delayed task start, nothing more. -/
def raceSees : List String → Nat → Nat := fun _ _ => 1

/-- Both tasks upload the file they observe (`b.mp4`); the first task's
`shutil.move` succeeds, the second task's move then fails, since the file
has already been moved away. -/
def raceMove : List String → Nat → Bool := fun _ j => j == 0

/-- A first run over one directory holding `a.mp4` and `b.mp4`, with every
`Upload()` succeeding, in which the task submitted for `a.mp4` is delayed
past one rebinding of `filepath`. -/
def raceRun1 : LoopState :=
  run (fun _ _ => true) raceMove raceSees demoStore
    [([], ["a.mp4", "b.mp4"])]

/-- C3 (code bug): `upload_this_file` is a zero-argument closure that
reads `main`'s `filepath` cell only when the pool runs it (lines 207-216),
so a task delayed past one loop iteration uploads the wrong file.  In
`raceRun1` the dispatcher submits tasks for `a.mp4` and `b.mp4`, the run
completes without error and every upload succeeds — yet both tasks
uploaded `b.mp4`, `a.mp4` was never uploaded and remains at its source
path, and a second run over the resulting state submits `a.mp4` again:
the second run uploads an additional file, contradicting the claimed
idempotence.  (With prompt task starts the claim does hold: see
`second_run_noop_of_prompt_tasks`.) -/
theorem C3_delayed_task_uploads_wrong_file :
    raceRun1.error? = none ∧
    raceRun1.submitted = [([], "a.mp4"), ([], "b.mp4")] ∧
    raceRun1.tasks.map
      (fun t => (t.file, t.outcome.uploadedRemotely)) =
      [("b.mp4", true), ("b.mp4", true)] ∧
    raceRun1.remainingDirs = [([], ["a.mp4"])] ∧
    (run (fun _ _ => true) (fun _ _ => true) promptSees
      raceRun1.drive raceRun1.remainingDirs).submitted =
      [([], "a.mp4")] := by
  exact ⟨rfl, rfl, rfl, rfl, rfl⟩


end Autoupload
